import Mathlib

/-!
Verification of theclapp/core: the websocket client (js backend) and the svg command.

A shallow embedding of

* `base/websocket/websocket_js.go`: `Connect`, `Client.OnMessage`, `Client.Send`,
  `Client.Close`, `Client.OnClose`, over a model of the JavaScript `WebSocket` object the
  client wraps and of the string and byte conversions of `syscall/js`;
* `svg/cmd/svg/svg.go`: `Render`, `EmbedImage`, `ApplyFill`, with `filepath.Ext` and
  `strings.TrimSuffix`.

Bytes are `Fin 256`; a Go `string` and a Go `[]byte` are lists of bytes. Go callbacks are
opaque: a callback is a name, and the environment keeps the log of the invocations made.
-/

namespace Websocket

/-! ## Bytes, Go strings, host strings -/

/-- A Go `byte`. -/
abbrev Byte := Fin 256

/-- Conversion of a number to a byte, as Go's `byte(n)`: reduction modulo 256. -/
def byte (n : Nat) : Byte := ⟨n % 256, Nat.mod_lt n (by decide)⟩

/-- A Go `string` (equally a `[]byte`): an arbitrary sequence of bytes. -/
abbrev GoString := List Byte

/-- The replacement character U+FFFD. -/
def replacementChar : Char := Char.ofNat 0xFFFD

/-- The byte order mark U+FEFF. -/
def byteOrderMark : Char := Char.ofNat 0xFEFF

/-- UTF-8 encoding of one scalar value (one to four bytes). -/
def utf8EncodeScalar (n : Nat) : List Byte :=
  if n ≤ 0x7F then [byte n]
  else if n ≤ 0x7FF then [byte (0xC0 + n / 64), byte (0x80 + n % 64)]
  else if n ≤ 0xFFFF then
    [byte (0xE0 + n / 4096), byte (0x80 + n / 64 % 64), byte (0x80 + n % 64)]
  else
    [byte (0xF0 + n / 262144), byte (0x80 + n / 4096 % 64), byte (0x80 + n / 64 % 64),
      byte (0x80 + n % 64)]

/-- UTF-8 encoding of one character. -/
def utf8EncodeChar (c : Char) : List Byte := utf8EncodeScalar c.toNat

/-- UTF-8 encoding of a sequence of scalar values: what the host's `TextEncoder.encode`
produces, and what "the UTF-8 bytes of a string" means below. -/
def utf8Encode : List Char → List Byte
  | [] => []
  | c :: cs => utf8EncodeChar c ++ utf8Encode cs

/-- State of the host's UTF-8 decoder: the code point under construction, the continuation
bytes seen and needed, and the bounds the next continuation byte must respect. -/
structure Utf8Decoder where
  codePoint : Nat
  bytesSeen : Nat
  bytesNeeded : Nat
  lower : Nat
  upper : Nat
deriving DecidableEq, Repr

/-- Decoder state between characters. -/
def Utf8Decoder.init : Utf8Decoder := ⟨0, 0, 0, 0x80, 0xBF⟩

/-- Handling of a byte when no continuation byte is expected: an ASCII byte is a
character, a lead byte opens a sequence, any other byte yields U+FFFD. -/
def Utf8Decoder.lead (b : Nat) : Utf8Decoder × List Char :=
  if b ≤ 0x7F then (Utf8Decoder.init, [Char.ofNat b])
  else if 0xC2 ≤ b ∧ b ≤ 0xDF then (⟨b - 0xC0, 0, 1, 0x80, 0xBF⟩, [])
  else if 0xE0 ≤ b ∧ b ≤ 0xEF then
    (⟨b - 0xE0, 0, 2, if b = 0xE0 then 0xA0 else 0x80, if b = 0xED then 0x9F else 0xBF⟩, [])
  else if 0xF0 ≤ b ∧ b ≤ 0xF4 then
    (⟨b - 0xF0, 0, 3, if b = 0xF0 then 0x90 else 0x80, if b = 0xF4 then 0x8F else 0xBF⟩, [])
  else (Utf8Decoder.init, [replacementChar])

/-- One step of the decoder. A byte outside the expected range ends the pending sequence
with U+FFFD and is then handled again as a first byte. -/
def Utf8Decoder.step (d : Utf8Decoder) (b : Nat) : Utf8Decoder × List Char :=
  if d.bytesNeeded = 0 then Utf8Decoder.lead b
  else if b < d.lower ∨ d.upper < b then
    ((Utf8Decoder.lead b).1, replacementChar :: (Utf8Decoder.lead b).2)
  else if d.bytesSeen + 1 = d.bytesNeeded then
    (Utf8Decoder.init, [Char.ofNat (d.codePoint * 64 + (b - 0x80))])
  else (⟨d.codePoint * 64 + (b - 0x80), d.bytesSeen + 1, d.bytesNeeded, 0x80, 0xBF⟩, [])

/-- Run of the decoder over the input; a sequence cut short by the end of the input
yields U+FFFD. -/
def utf8DecodeFrom (d : Utf8Decoder) : List Byte → List Char
  | [] => if d.bytesNeeded = 0 then [] else [replacementChar]
  | b :: bs => (d.step b.val).2 ++ utf8DecodeFrom (d.step b.val).1 bs

/-- UTF-8 decoding with replacement: never fails, ill-formed input becomes U+FFFD. -/
def utf8Decode (bs : List Byte) : List Char := utf8DecodeFrom Utf8Decoder.init bs

/-- A byte sequence is valid UTF-8 when decoding and encoding again gives it back. -/
def isValidUTF8 (bs : List Byte) : Bool := decide (utf8Encode (utf8Decode bs) = bs)

/-- The host decoder omits one byte order mark at the start of its output. -/
def stripBOM : List Char → List Char
  | [] => []
  | c :: cs => if c = byteOrderMark then cs else c :: cs

/-- The JavaScript string a Go string becomes when it crosses into the host, as in
`ws.Call("send", string(msg))`: `syscall/js` loads it with `new TextDecoder("utf-8")`,
which replaces ill-formed sequences by U+FFFD and omits a leading byte order mark.
A host string is modelled as its sequence of scalar values. -/
def jsStringOfGo (s : GoString) : List Char := stripBOM (utf8Decode s)

/-- The Go string of a JavaScript string, as in `data.String()`: `syscall/js` encodes it
with `TextEncoder`, that is as UTF-8. -/
def goStringOfJS (s : List Char) : GoString := utf8Encode s

/-- A Go string literal: the UTF-8 bytes of its text. -/
def goLit (s : String) : GoString := utf8Encode s.toList

/-! ## JavaScript values and the WebSocket object -/

/-- Modelled from the spec: the `MessageTypes` enumeration with `TextMessage` and
`BinaryMessage` is declared in a file of the package that is not under src/; the spec
gives it exactly two values, `Text` and `Binary`. -/
inductive MessageTypes
  | TextMessage
  | BinaryMessage
deriving DecidableEq, Repr

/-- The JavaScript values that cross the socket: a string, the `ArrayBuffer` of a binary
message event (the socket's `binaryType` being `"arraybuffer"`), and the
`Uint8ClampedArray` that `Send` builds. -/
inductive JSValue
  | string (s : List Char)
  | arrayBuffer (bytes : List Byte)
  | uint8ClampedArray (bytes : List Byte)
deriving DecidableEq, Repr

/-- The test `data.Type() == js.TypeString`. -/
def JSValue.isString : JSValue → Bool
  | .string _ => true
  | _ => false

/-- The method `Value.String()`: the Go string of a JavaScript string; for an object
`syscall/js` returns the text `<object>`. -/
def JSValue.String : JSValue → GoString
  | .string s => goStringOfJS s
  | _ => goLit "<object>"

/-- The bytes a binary value holds (none for a string). -/
def JSValue.bytes : JSValue → List Byte
  | .string _ => []
  | .arrayBuffer bs => bs
  | .uint8ClampedArray bs => bs

/-- The elements of `new Uint8ClampedArray(data)`: a view of an `ArrayBuffer`, a copy of
another typed array; a string argument gives an empty array. -/
def Uint8ClampedArrayNew (data : JSValue) : List Byte := data.bytes

/-- Go's `make([]byte, n)`: `n` zero bytes. -/
def make (n : Nat) : List Byte := List.replicate n 0

/-- The function `js.CopyBytesToGo(dst, src)`: copies `min(len(dst), len(src))` bytes of
`src` to the front of `dst`; the result is `dst` after the call. -/
def CopyBytesToGo (dst src : List Byte) : List Byte :=
  src.take (min dst.length src.length) ++ dst.drop (min dst.length src.length)

/-- The function `jsx.BytesToJS(msg)`: a `Uint8ClampedArray` holding a copy of `msg`. -/
def BytesToJS (msg : List Byte) : JSValue := .uint8ClampedArray msg

/-- The `readyState` of a WebSocket object. -/
inductive ReadyState
  | CONNECTING
  | OPEN
  | CLOSING
  | CLOSED
deriving DecidableEq, Repr

/-- A Go callback handed to `OnMessage` or `OnClose`, identified by a name. -/
abbrev Callback := Nat

/-- One invocation of a callback: `f(typ, msg)` for a message callback, `f()` for a close
callback. -/
inductive Invocation
  | message (f : Callback) (typ : MessageTypes) (msg : List Byte)
  | close (f : Callback)
deriving DecidableEq, Repr

/-- The JavaScript WebSocket object: its url, `binaryType`, `readyState`, the payloads
accepted by `send` (oldest first), and the callbacks behind the listeners added for
`"message"` and `"close"`, in registration order. -/
structure WebSocket where
  url : List Char
  binaryType : List Char
  readyState : ReadyState
  sent : List JSValue
  messageListeners : List Callback
  closeListeners : List Callback
deriving DecidableEq, Repr

/-- The host environment: the WebSocket objects created so far, and the log of callback
invocations (oldest first). -/
structure Env where
  sockets : List WebSocket
  calls : List Invocation
deriving DecidableEq, Repr

/-- A JavaScript exception, which `syscall/js` turns into a Go panic. -/
inductive JSError
  | syntaxError
  | invalidStateError
  | typeError
deriving DecidableEq, Repr

/-- Outcomes of calls are compared by computation. -/
instance instDecidableEqOutcome {ε α : Type} [DecidableEq ε] [DecidableEq α] :
    DecidableEq (Except ε α)
  | .ok a, .ok b => if h : a = b then isTrue (by rw [h]) else isFalse (fun e => h (by cases e; rfl))
  | .error a, .error b =>
    if h : a = b then isTrue (by rw [h]) else isFalse (fun e => h (by cases e; rfl))
  | .ok _, .error _ => isFalse (fun e => by cases e)
  | .error _, .ok _ => isFalse (fun e => by cases e)

/-- A Go `error` value; `none` below is `nil`. -/
abbrev GoError := String

/-- The part of the host this file does not fix: which urls the `WebSocket` constructor
accepts (it throws a `SyntaxError` on the others). -/
structure Host where
  acceptsURL : List Char → Bool

/-- The struct `Client`: `ws` refers to the underlying WebSocket object. -/
structure Client where
  ws : Nat
deriving DecidableEq, Repr

/-- The environment in which the socket `ws` has become `s`. -/
def Env.setSocket (env : Env) (ws : Nat) (s : WebSocket) : Env :=
  { env with sockets := env.sockets.set ws s }

/-- Replaces the socket `ws` by `g` of it; a reference to no object makes the call throw. -/
def Env.modify (env : Env) (ws : Nat) (g : WebSocket → WebSocket) : Except JSError Env :=
  match env.sockets[ws]? with
  | none => .error .typeError
  | some s => .ok (env.setSocket ws (g s))

/-- The call `new WebSocket(url)`: a new object in state CONNECTING with the default
`binaryType`, or a `SyntaxError` when the host rejects the url. The result refers to the
new object. -/
def newWebSocket (h : Host) (env : Env) (url : List Char) : Except JSError (Env × Nat) :=
  if h.acceptsURL url then
    .ok ({ env with sockets := env.sockets ++ [⟨url, "blob".toList, .CONNECTING, [], [], []⟩] },
      env.sockets.length)
  else .error .syntaxError

/-- The assignment `ws.binaryType = v`. -/
def setBinaryType (env : Env) (ws : Nat) (v : List Char) : Except JSError Env :=
  env.modify ws (fun s => { s with binaryType := v })

/-- The call `ws.addEventListener("message", listener)` for the listener that `OnMessage`
builds around the callback `f`. -/
def addMessageListener (env : Env) (ws : Nat) (f : Callback) : Except JSError Env :=
  env.modify ws (fun s => { s with messageListeners := s.messageListeners ++ [f] })

/-- The call `ws.addEventListener("close", listener)` for the listener that `OnClose`
builds around the callback `f`. -/
def addCloseListener (env : Env) (ws : Nat) (f : Callback) : Except JSError Env :=
  env.modify ws (fun s => { s with closeListeners := s.closeListeners ++ [f] })

/-- The call `ws.send(payload)`: throws `InvalidStateError` while CONNECTING, queues the
payload when OPEN, and discards it without an exception when CLOSING or CLOSED. -/
def jsSend (env : Env) (ws : Nat) (payload : JSValue) : Except JSError Env :=
  match env.sockets[ws]? with
  | none => .error .typeError
  | some s =>
    match s.readyState with
    | .CONNECTING => .error .invalidStateError
    | .OPEN => .ok (env.setSocket ws { s with sent := s.sent ++ [payload] })
    | .CLOSING => .ok env
    | .CLOSED => .ok env

/-- The call `ws.close()`: starts the closing handshake of a socket that is CONNECTING or
OPEN, and does nothing otherwise. No event is dispatched during the call. -/
def jsClose (env : Env) (ws : Nat) : Except JSError Env :=
  env.modify ws (fun s =>
    match s.readyState with
    | .CONNECTING => { s with readyState := .CLOSING }
    | .OPEN => { s with readyState := .CLOSING }
    | .CLOSING => s
    | .CLOSED => s)

/-! ## The client (websocket_js.go) -/

/-- The function `Connect`: creates the WebSocket, sets its `binaryType` to
`"arraybuffer"`, and returns the client with a nil error. -/
def Connect (h : Host) (env : Env) (url : GoString) :
    Except JSError (Env × Client × Option GoError) :=
  match newWebSocket h env (jsStringOfGo url) with
  | .error e => .error e
  | .ok (env1, ws) =>
    match setBinaryType env1 ws (jsStringOfGo (goLit "arraybuffer")) with
    | .error e => .error e
    | .ok env2 => .ok (env2, ⟨ws⟩, none)

/-- The body of the listener that `OnMessage(f)` installs, run on the `data` of one
message event: the invocations of `f` it makes. -/
def messageListener (f : Callback) (data : JSValue) : List Invocation :=
  if data.isString then
    [.message f .TextMessage data.String]
  else
    let array := Uint8ClampedArrayNew data
    let b := make array.length
    let b := CopyBytesToGo b array
    [.message f .BinaryMessage b]

/-- The method `Client.OnMessage`. -/
def OnMessage (env : Env) (c : Client) (f : Callback) : Except JSError Env :=
  addMessageListener env c.ws f

/-- The payload `Client.Send` hands to `ws.send`: the string `string(msg)` for a text
message, the array `jsx.BytesToJS(msg)` otherwise. -/
def sendPayload (typ : MessageTypes) (msg : List Byte) : JSValue :=
  if typ = .TextMessage then .string (jsStringOfGo msg) else BytesToJS msg

/-- The method `Client.Send`: on both paths the value returned is nil. -/
def Send (env : Env) (c : Client) (typ : MessageTypes) (msg : List Byte) :
    Except JSError (Env × Option GoError) :=
  if typ = .TextMessage then
    match jsSend env c.ws (.string (jsStringOfGo msg)) with
    | .error e => .error e
    | .ok env1 => .ok (env1, none)
  else
    let array := BytesToJS msg
    match jsSend env c.ws array with
    | .error e => .error e
    | .ok env1 => .ok (env1, none)

/-- The method `Client.Close`. -/
def Close (env : Env) (c : Client) : Except JSError (Env × Option GoError) :=
  match jsClose env c.ws with
  | .error e => .error e
  | .ok env1 => .ok (env1, none)

/-- The body of the listener that `OnClose(f)` installs: it calls `f()`. -/
def closeListener (f : Callback) : List Invocation := [.close f]

/-- The method `Client.OnClose`. -/
def OnClose (env : Env) (c : Client) (f : Callback) : Except JSError Env :=
  addCloseListener env c.ws f

/-! ## Events of the transport -/

/-- What the transport does to a socket: the handshake completes, a message arrives, the
connection is closed (by either side, or by a failure). -/
inductive TransportEvent
  | opened
  | message (data : JSValue)
  | closed
deriving DecidableEq, Repr

/-- Dispatch of one transport event on the socket `ws`. A message event is dispatched only
while the socket is OPEN; the close event is dispatched once, when the socket becomes
CLOSED. The listeners run in registration order. -/
def dispatch (env : Env) (ws : Nat) (ev : TransportEvent) : Env :=
  match env.sockets[ws]? with
  | none => env
  | some s =>
    match ev with
    | .opened =>
      if s.readyState = .CONNECTING then
        env.setSocket ws { s with readyState := .OPEN }
      else env
    | .message data =>
      if s.readyState = .OPEN then
        { env with calls := env.calls ++ s.messageListeners.flatMap (fun f => messageListener f data) }
      else env
    | .closed =>
      if s.readyState = .CLOSED then env
      else
        { env.setSocket ws { s with readyState := .CLOSED } with
          calls := env.calls ++ s.closeListeners.flatMap closeListener }

/-- Dispatch of a sequence of transport events on the socket `ws`, in order. -/
def run (env : Env) (ws : Nat) (evs : List TransportEvent) : Env :=
  evs.foldl (fun e ev => dispatch e ws ev) env

/-- The message event an echoing peer causes for a payload handed to `ws.send`: a string
comes back as a string, bytes come back as an `ArrayBuffer` with the same bytes. -/
def echoEvent : JSValue → JSValue
  | .string s => .string s
  | .arrayBuffer bs => .arrayBuffer bs
  | .uint8ClampedArray bs => .arrayBuffer bs

/-- The arguments the message callback is to receive for an event, in the words of the
spec: a string is delivered as Text with its UTF-8 bytes, anything else as Binary with
the bytes of the data. -/
def classify (data : JSValue) : MessageTypes × List Byte :=
  match data with
  | .string s => (.TextMessage, utf8Encode s)
  | .arrayBuffer bs => (.BinaryMessage, bs)
  | .uint8ClampedArray bs => (.BinaryMessage, bs)

/-- The invocations of the message callback `f` in a log. -/
def messageCallsOf (f : Callback) (calls : List Invocation) : List Invocation :=
  calls.filter (fun i => match i with
    | .message g _ _ => decide (g = f)
    | .close _ => false)

/-- The number of times the close callback `f` was invoked in a log. -/
def closeCallsOf (f : Callback) (calls : List Invocation) : Nat :=
  calls.count (.close f)

/-! ## Concrete hosts, sockets and sessions -/

/-- A host whose `WebSocket` constructor accepts the urls that start with `ws:` and throws
on the others. -/
def schemeHost : Host := ⟨fun url => decide (url.take 3 = "ws:".toList)⟩

/-- The environment before any socket is created. -/
def emptyEnv : Env := ⟨[], []⟩

/-- A socket whose handshake has completed, without listeners. -/
def openSocket : WebSocket := ⟨"ws://h".toList, "arraybuffer".toList, .OPEN, [], [], []⟩

/-- An environment with one open socket. -/
def openEnv : Env := ⟨[openSocket], []⟩

/-- A socket whose connection is over: its close event has been dispatched. -/
def closedSocket : WebSocket := ⟨"ws://h".toList, "arraybuffer".toList, .CLOSED, [], [], []⟩

/-- An environment with one closed socket. -/
def closedEnv : Env := ⟨[closedSocket], []⟩

/-- The environment after `Connect`, `OnClose(7)`, the handshake, and a closure by the
peer: the close callback 7 has been invoked once. -/
def sessionAfterClose : Env :=
  match Connect schemeHost emptyEnv (goLit "ws://h") with
  | .error _ => emptyEnv
  | .ok (env, c, _) =>
    match OnClose env c 7 with
    | .error _ => emptyEnv
    | .ok env1 => run env1 c.ws [.opened, .closed]

/-- The environment after `OnClose(7)` and `Close()` on the client of `closedEnv`. -/
def lateRegistration : Env :=
  match OnClose closedEnv ⟨0⟩ 7 with
  | .error _ => emptyEnv
  | .ok env1 =>
    match Close env1 ⟨0⟩ with
    | .error _ => emptyEnv
    | .ok (env2, _) => env2

end Websocket

namespace Svg

open Websocket (Byte GoString GoError goLit)

/-! ## The svg command (svg.go) -/

/-- The operating system the command is built for; it fixes the path separators. -/
inductive GOOS
  | unix
  | windows
deriving DecidableEq, Repr

/-- The function `os.IsPathSeparator`: the slash, and on Windows also the backslash. -/
def IsPathSeparator (goos : GOOS) (c : Byte) : Bool :=
  match goos with
  | .unix => decide (c = 0x2F)
  | .windows => decide (c = 0x5C) || decide (c = 0x2F)

/-- The loop of `filepath.Ext`, with `n = i + 1` for the index `i` it is about to
inspect: it walks back from the end, stops at a path separator, and returns `path[i:]` at
the first dot. -/
def ExtLoop (goos : GOOS) (path : GoString) : Nat → GoString
  | 0 => []
  | i + 1 =>
    match path[i]? with
    | none => []
    | some c =>
      if IsPathSeparator goos c then []
      else if c = 0x2E then path.drop i
      else ExtLoop goos path i

/-- The function `filepath.Ext`: the suffix of `path` that starts at the last dot of its
last element, empty when there is no dot. -/
def Ext (goos : GOOS) (path : GoString) : GoString := ExtLoop goos path path.length

/-- The function `strings.HasSuffix`. -/
def HasSuffix (s suffix : GoString) : Bool :=
  decide (suffix.length ≤ s.length) && decide (s.drop (s.length - suffix.length) = suffix)

/-- The function `strings.TrimSuffix`: `s` without the trailing `suffix`, or `s` itself
when it does not end with `suffix`. -/
def TrimSuffix (s suffix : GoString) : GoString :=
  if HasSuffix s suffix then s.take (s.length - suffix.length) else s

/-- The struct `RenderConfig`. -/
structure RenderConfig where
  Width : Int
  Height : Int
deriving DecidableEq, Repr

/-- The struct `Config`. -/
structure Config where
  Input : GoString
  Output : GoString
  Fill : GoString
  Render : RenderConfig
deriving DecidableEq, Repr

/-- The operations of the svg and gradient packages that the command calls, reduced to
the error each returns (`none` is nil) for the file name or color text it is given. -/
structure SvgLib where
  fromString : GoString → Option GoError
  openXML : GoString → Option GoError
  saveImage : GoString → Option GoError
  openImage : GoString → Option GoError
  saveXML : GoString → Option GoError

/-- The outcome of a command: the `Config` as the command leaves it, the file name handed
to `SaveImage` or `SaveXML` when the command got that far, and the error returned. -/
structure CmdResult where
  config : Config
  saved : Option GoString
  err : Option GoError
deriving DecidableEq, Repr

/-- The function `ApplyFill`: nil for an empty `Fill`, else the error of parsing it. -/
def ApplyFill (lib : SvgLib) (c : Config) : Option GoError :=
  if c.Fill = [] then none else lib.fromString c.Fill

/-- The function `Render`. -/
def Render (lib : SvgLib) (goos : GOOS) (c : Config) : CmdResult :=
  let c : Config :=
    if c.Render.Height = 0 then { c with Render := { c.Render with Height := c.Render.Width } }
    else c
  match ApplyFill lib c with
  | some err => ⟨c, none, some err⟩
  | none =>
    match lib.openXML c.Input with
    | some err => ⟨c, none, some err⟩
    | none =>
      let c : Config :=
        if c.Output = [] then
          { c with Output := TrimSuffix c.Input (Ext goos c.Input) ++ goLit ".png" }
        else c
      ⟨c, some c.Output, lib.saveImage c.Output⟩

/-- The function `EmbedImage`. -/
def EmbedImage (lib : SvgLib) (goos : GOOS) (c : Config) : CmdResult :=
  match ApplyFill lib c with
  | some err => ⟨c, none, some err⟩
  | none =>
    match lib.openImage c.Input with
    | some err => ⟨c, none, some err⟩
    | none =>
      let c : Config :=
        if c.Output = [] then
          { c with Output := TrimSuffix c.Input (Ext goos c.Input) ++ goLit ".svg" }
        else c
      ⟨c, some c.Output, lib.saveXML c.Output⟩

/-- A library in which every operation succeeds. -/
def okLib : SvgLib := ⟨fun _ => none, fun _ => none, fun _ => none, fun _ => none, fun _ => none⟩

/-- The configuration of `svg pics/logo.v2.svg 64`: no output given. -/
def demoConfig : Config := ⟨goLit "pics/logo.v2.svg", [], [], ⟨64, 0⟩⟩

end Svg


/-! ## The UTF-8 codec: decoding inverts encoding -/

namespace Websocket

theorem Utf8Decoder.step_init (b : Nat) :
    Utf8Decoder.init.step b = Utf8Decoder.lead b := by
  simp [Utf8Decoder.step, Utf8Decoder.init]

theorem Utf8Decoder.step_last (d : Utf8Decoder) (b : Nat) (hn : d.bytesNeeded ≠ 0)
    (hlo : d.lower ≤ b) (hhi : b ≤ d.upper) (hl : d.bytesSeen + 1 = d.bytesNeeded) :
    d.step b = (Utf8Decoder.init, [Char.ofNat (d.codePoint * 64 + (b - 0x80))]) := by
  unfold Utf8Decoder.step
  rw [if_neg hn, if_neg (by omega), if_pos hl]

theorem Utf8Decoder.step_more (d : Utf8Decoder) (b : Nat) (hn : d.bytesNeeded ≠ 0)
    (hlo : d.lower ≤ b) (hhi : b ≤ d.upper) (hl : d.bytesSeen + 1 ≠ d.bytesNeeded) :
    d.step b
      = (⟨d.codePoint * 64 + (b - 0x80), d.bytesSeen + 1, d.bytesNeeded, 0x80, 0xBF⟩, []) := by
  unfold Utf8Decoder.step
  rw [if_neg hn, if_neg (by omega), if_neg hl]

theorem byte_val (n : Nat) (h : n < 256) : (byte n).val = n := Nat.mod_eq_of_lt h

theorem utf8DecodeFrom_encodeScalar (n : Nat) (hv : n < 0xD800 ∨ (0xDFFF < n ∧ n < 0x110000))
    (rest : List Byte) :
    utf8DecodeFrom Utf8Decoder.init (utf8EncodeScalar n ++ rest)
      = Char.ofNat n :: utf8DecodeFrom Utf8Decoder.init rest := by
  unfold utf8EncodeScalar
  split_ifs with h1 h2 h3
  · simp only [List.cons_append, List.nil_append, utf8DecodeFrom, Utf8Decoder.step_init,
      byte_val n (by omega)]
    simp [Utf8Decoder.lead, h1]
  · have e0 : (byte (0xC0 + n / 64)).val = 0xC0 + n / 64 := byte_val _ (by omega)
    have e1 : (byte (0x80 + n % 64)).val = 0x80 + n % 64 := byte_val _ (by omega)
    have l0 : Utf8Decoder.lead (0xC0 + n / 64) = (⟨n / 64, 0, 1, 0x80, 0xBF⟩, []) := by
      unfold Utf8Decoder.lead
      rw [if_neg (by omega), if_pos (by omega)]
      simp
    simp only [List.cons_append, List.nil_append, utf8DecodeFrom, Utf8Decoder.step_init, e0, e1, l0]
    rw [Utf8Decoder.step_last _ _ (by simp) (by simp) (by simp; omega) (by simp)]
    have e : n / 64 * 64 + (0x80 + n % 64 - 0x80) = n := by omega
    simp only [e, List.nil_append, List.singleton_append, List.append_eq]
  · have e0 : (byte (0xE0 + n / 4096)).val = 0xE0 + n / 4096 := byte_val _ (by omega)
    have e1 : (byte (0x80 + n / 64 % 64)).val = 0x80 + n / 64 % 64 := byte_val _ (by omega)
    have e2 : (byte (0x80 + n % 64)).val = 0x80 + n % 64 := byte_val _ (by omega)
    have l0 : Utf8Decoder.lead (0xE0 + n / 4096)
        = (⟨n / 4096, 0, 2, if 0xE0 + n / 4096 = 0xE0 then 0xA0 else 0x80,
            if 0xE0 + n / 4096 = 0xED then 0x9F else 0xBF⟩, []) := by
      unfold Utf8Decoder.lead
      rw [if_neg (by omega), if_neg (by omega), if_pos (by omega)]
      simp
    simp only [List.cons_append, List.nil_append, utf8DecodeFrom, Utf8Decoder.step_init, e0, e1,
      e2, l0]
    rw [Utf8Decoder.step_more _ _ (by simp) (by simp only; split_ifs <;> omega)
      (by simp only; split_ifs <;> omega) (by simp)]
    rw [Utf8Decoder.step_last _ _ (by simp) (by simp) (by simp; omega) (by simp)]
    have e : (n / 4096 * 64 + (0x80 + n / 64 % 64 - 0x80)) * 64 + (0x80 + n % 64 - 0x80) = n := by
      omega
    simp only [e, List.nil_append, List.singleton_append, List.append_eq]
  · have e0 : (byte (0xF0 + n / 262144)).val = 0xF0 + n / 262144 := byte_val _ (by omega)
    have e1 : (byte (0x80 + n / 4096 % 64)).val = 0x80 + n / 4096 % 64 := byte_val _ (by omega)
    have e2 : (byte (0x80 + n / 64 % 64)).val = 0x80 + n / 64 % 64 := byte_val _ (by omega)
    have e3 : (byte (0x80 + n % 64)).val = 0x80 + n % 64 := byte_val _ (by omega)
    have l0 : Utf8Decoder.lead (0xF0 + n / 262144)
        = (⟨n / 262144, 0, 3, if 0xF0 + n / 262144 = 0xF0 then 0x90 else 0x80,
            if 0xF0 + n / 262144 = 0xF4 then 0x8F else 0xBF⟩, []) := by
      unfold Utf8Decoder.lead
      rw [if_neg (by omega), if_neg (by omega), if_neg (by omega), if_pos (by omega)]
      simp
    simp only [List.cons_append, List.nil_append, utf8DecodeFrom, Utf8Decoder.step_init, e0, e1,
      e2, e3, l0]
    rw [Utf8Decoder.step_more _ _ (by simp) (by simp only; split_ifs <;> omega)
      (by simp only; split_ifs <;> omega) (by simp)]
    rw [Utf8Decoder.step_more _ _ (by simp) (by simp) (by simp; omega) (by simp)]
    rw [Utf8Decoder.step_last _ _ (by simp) (by simp) (by simp; omega) (by simp)]
    have e : ((n / 262144 * 64 + (0x80 + n / 4096 % 64 - 0x80)) * 64
        + (0x80 + n / 64 % 64 - 0x80)) * 64 + (0x80 + n % 64 - 0x80) = n := by
      omega
    simp only [e, List.nil_append, List.singleton_append, List.append_eq]

theorem utf8Decode_utf8Encode (cs : List Char) : utf8Decode (utf8Encode cs) = cs := by
  unfold utf8Decode
  induction cs with
  | nil => simp [utf8Encode, utf8DecodeFrom, Utf8Decoder.init]
  | cons c cs ih =>
    have hv : c.toNat < 0xD800 ∨ (0xDFFF < c.toNat ∧ c.toNat < 0x110000) := c.valid
    rw [utf8Encode, utf8EncodeChar, utf8DecodeFrom_encodeScalar _ hv, ih, Char.ofNat_toNat]


theorem isValidUTF8_utf8Encode (cs : List Char) : isValidUTF8 (utf8Encode cs) = true := by
  simp [isValidUTF8, utf8Decode_utf8Encode]

theorem jsStringOfGo_utf8Encode (cs : List Char) (h : cs.head? ≠ some byteOrderMark) :
    jsStringOfGo (utf8Encode cs) = cs := by
  rw [jsStringOfGo, utf8Decode_utf8Encode]
  cases cs with
  | nil => rfl
  | cons c cs =>
    have hc : c ≠ byteOrderMark := by simpa using h
    simp [stripBOM, hc]

theorem CopyBytesToGo_make (src : List Byte) : CopyBytesToGo (make src.length) src = src := by
  simp [CopyBytesToGo, make]

theorem messageListener_eq_classify (f : Callback) (data : JSValue) :
    messageListener f data = [.message f (classify data).1 (classify data).2] := by
  cases data <;>
    simp [messageListener, JSValue.isString, JSValue.String, goStringOfJS, classify,
      Uint8ClampedArrayNew, JSValue.bytes, CopyBytesToGo_make]

theorem Env.modify_of_lookup (env : Env) (ws : Nat) (g : WebSocket → WebSocket) (s : WebSocket)
    (hs : env.sockets[ws]? = some s) :
    env.modify ws g = .ok (env.setSocket ws (g s)) := by
  simp [Env.modify, hs]

theorem lookup_setSocket (env : Env) (ws : Nat) (s t : WebSocket)
    (hs : env.sockets[ws]? = some s) : (env.setSocket ws t).sockets[ws]? = some t := by
  have hlt : ws < env.sockets.length := by
    by_contra hge
    rw [List.getElem?_eq_none (by omega)] at hs
    cases hs
  simp [Env.setSocket, hlt]

theorem calls_setSocket (env : Env) (ws : Nat) (t : WebSocket) :
    (env.setSocket ws t).calls = env.calls := rfl

/-! ## The socket operations -/

theorem jsSend_open (env : Env) (ws : Nat) (s : WebSocket) (p : JSValue)
    (hs : env.sockets[ws]? = some s) (ho : s.readyState = .OPEN) :
    jsSend env ws p
      = .ok (env.setSocket ws { s with sent := s.sent ++ [p] }) := by
  simp [jsSend, hs, ho]

theorem jsSend_closed (env : Env) (ws : Nat) (s : WebSocket) (p : JSValue)
    (hs : env.sockets[ws]? = some s) (hc : s.readyState = .CLOSED) :
    jsSend env ws p = .ok env := by
  simp [jsSend, hs, hc]

theorem Send_eq (env : Env) (c : Client) (typ : MessageTypes) (msg : List Byte) :
    Send env c typ msg
      = match jsSend env c.ws (sendPayload typ msg) with
        | .error e => .error e
        | .ok env1 => .ok (env1, none) := by
  unfold Send sendPayload
  split_ifs <;> rfl

theorem Send_error_nil (env : Env) (c : Client) (typ : MessageTypes) (msg : List Byte)
    (out : Env × Option GoError) (h : Send env c typ msg = .ok out) : out.2 = none := by
  rw [Send_eq] at h
  split at h
  · cases h
  · cases h; rfl

/-! ## Transport events -/

theorem dispatch_opened (env : Env) (ws : Nat) (s : WebSocket) (hs : env.sockets[ws]? = some s) :
    dispatch env ws .opened
      = if s.readyState = .CONNECTING then env.setSocket ws { s with readyState := .OPEN }
        else env := by
  simp [dispatch, hs]

theorem dispatch_message (env : Env) (ws : Nat) (s : WebSocket) (data : JSValue)
    (hs : env.sockets[ws]? = some s) :
    dispatch env ws (.message data)
      = if s.readyState = .OPEN then
          { env with
            calls := env.calls ++ s.messageListeners.flatMap (fun f => messageListener f data) }
        else env := by
  simp [dispatch, hs]

theorem dispatch_closed (env : Env) (ws : Nat) (s : WebSocket) (hs : env.sockets[ws]? = some s) :
    dispatch env ws .closed
      = if s.readyState = .CLOSED then env
        else
          { env.setSocket ws { s with readyState := .CLOSED } with
            calls := env.calls ++ s.closeListeners.flatMap closeListener } := by
  simp [dispatch, hs]

/-- After any event the socket is still there, with the same listeners, and it is CLOSED
exactly when it was CLOSED before or the event is the close event. -/
theorem dispatch_lookup (env : Env) (ws : Nat) (s : WebSocket) (ev : TransportEvent)
    (hs : env.sockets[ws]? = some s) :
    ∃ t, (dispatch env ws ev).sockets[ws]? = some t
      ∧ t.messageListeners = s.messageListeners ∧ t.closeListeners = s.closeListeners
      ∧ (t.readyState = .CLOSED ↔ (s.readyState = .CLOSED ∨ ev = .closed))
      ∧ (s.readyState = .OPEN → ev ≠ .closed → t.readyState = .OPEN) := by
  cases ev with
  | opened =>
    rw [dispatch_opened env ws s hs]
    split_ifs with h
    · exact ⟨_, lookup_setSocket env ws s _ hs, rfl, rfl, by simp [h], by simp⟩
    · exact ⟨s, hs, rfl, rfl, by simp, by simp⟩
  | message data =>
    rw [dispatch_message env ws s data hs]
    split_ifs with h
    · exact ⟨s, hs, rfl, rfl, by simp, by simp⟩
    · exact ⟨s, hs, rfl, rfl, by simp, by simp⟩
  | closed =>
    rw [dispatch_closed env ws s hs]
    split_ifs with h
    · exact ⟨s, hs, rfl, rfl, by simp [h], by simp⟩
    · exact ⟨_, lookup_setSocket env ws s _ hs, rfl, rfl, by simp, by simp⟩

theorem run_nil (env : Env) (ws : Nat) : run env ws [] = env := rfl

theorem run_cons (env : Env) (ws : Nat) (ev : TransportEvent) (evs : List TransportEvent) :
    run env ws (ev :: evs) = run (dispatch env ws ev) ws evs := rfl

theorem run_append (env : Env) (ws : Nat) (evs1 evs2 : List TransportEvent) :
    run env ws (evs1 ++ evs2) = run (run env ws evs1) ws evs2 := by
  simp [run, List.foldl_append]

theorem run_lookup (ws : Nat) (evs : List TransportEvent) :
    ∀ (env : Env) (s : WebSocket), env.sockets[ws]? = some s →
    ∃ t, (run env ws evs).sockets[ws]? = some t
      ∧ t.messageListeners = s.messageListeners ∧ t.closeListeners = s.closeListeners
      ∧ (t.readyState = .CLOSED ↔ (s.readyState = .CLOSED ∨ .closed ∈ evs)) := by
  induction evs with
  | nil => intro env s hs; exact ⟨s, hs, rfl, rfl, by simp⟩
  | cons ev evs ih =>
    intro env s hs
    obtain ⟨t, ht, hm, hc, hr, -⟩ := dispatch_lookup env ws s ev hs
    obtain ⟨u, hu, hm2, hc2, hr2⟩ := ih (dispatch env ws ev) t ht
    refine ⟨u, by rw [run_cons]; exact hu, hm2.trans hm, hc2.trans hc, ?_⟩
    rw [hr2, hr]
    simp only [List.mem_cons]
    constructor
    · rintro ((h | h) | h)
      · exact Or.inl h
      · exact Or.inr (Or.inl h.symm)
      · exact Or.inr (Or.inr h)
    · rintro (h | h | h)
      · exact Or.inl (Or.inl h)
      · exact Or.inl (Or.inr h.symm)
      · exact Or.inr h

/-! ## Counting the invocations of a close callback -/

theorem closeCallsOf_append (f : Callback) (l1 l2 : List Invocation) :
    closeCallsOf f (l1 ++ l2) = closeCallsOf f l1 + closeCallsOf f l2 := by
  simp [closeCallsOf, List.count_append]

theorem closeCallsOf_messageListeners (f : Callback) (data : JSValue) (ls : List Callback) :
    closeCallsOf f (ls.flatMap (fun g => messageListener g data)) = 0 := by
  induction ls with
  | nil => rfl
  | cons g ls ih =>
    rw [List.flatMap_cons, closeCallsOf_append, ih, messageListener_eq_classify]
    simp [closeCallsOf]

theorem closeCallsOf_closeListeners (f : Callback) (ls : List Callback) :
    closeCallsOf f (ls.flatMap closeListener) = ls.count f := by
  induction ls with
  | nil => rfl
  | cons g ls ih =>
    rw [List.flatMap_cons, closeCallsOf_append, ih, closeListener]
    by_cases h : g = f
    · subst h; simp [closeCallsOf]; omega
    · have h2 : ¬ (Invocation.close g = Invocation.close f) := by
        intro e; exact h (Invocation.close.inj e)
      simp [closeCallsOf, List.count_cons, h, h2]

/-- One event invokes the close callback `f` as often as it is registered when the event is
the close event of a socket that is not yet CLOSED, and not at all otherwise. -/
theorem closeCallsOf_dispatch (env : Env) (ws : Nat) (s : WebSocket) (f : Callback)
    (ev : TransportEvent) (hs : env.sockets[ws]? = some s) :
    closeCallsOf f (dispatch env ws ev).calls
      = closeCallsOf f env.calls
        + (if s.readyState ≠ .CLOSED ∧ ev = .closed then s.closeListeners.count f else 0) := by
  cases ev with
  | opened =>
    rw [dispatch_opened env ws s hs]
    split_ifs <;> simp_all [calls_setSocket]
  | message data =>
    rw [dispatch_message env ws s data hs]
    split_ifs <;> simp_all [closeCallsOf_append, closeCallsOf_messageListeners]
  | closed =>
    rw [dispatch_closed env ws s hs]
    split_ifs <;> simp_all [closeCallsOf_append, closeCallsOf_closeListeners]

theorem closeCallsOf_run (ws : Nat) (f : Callback) (evs : List TransportEvent) :
    ∀ (env : Env) (s : WebSocket), env.sockets[ws]? = some s →
    closeCallsOf f (run env ws evs).calls
      = closeCallsOf f env.calls
        + (if s.readyState ≠ .CLOSED ∧ .closed ∈ evs then s.closeListeners.count f else 0) := by
  induction evs with
  | nil => intro env s _; simp [run_nil]
  | cons ev evs ih =>
    intro env s hs
    obtain ⟨t, ht, -, hc, hr, -⟩ := dispatch_lookup env ws s ev hs
    rw [run_cons, ih (dispatch env ws ev) t ht, closeCallsOf_dispatch env ws s f ev hs, hc]
    by_cases h1 : s.readyState = .CLOSED
    · have : t.readyState = .CLOSED := hr.mpr (Or.inl h1)
      simp [h1, this]
    · by_cases h2 : ev = .closed
      · have : t.readyState = .CLOSED := hr.mpr (Or.inr h2)
        simp [h1, h2, this]
      · have : ¬ t.readyState = .CLOSED := fun h => (hr.mp h).elim h1 h2
        have h3 : ¬ (TransportEvent.closed = ev) := fun h => h2 h.symm
        simp [h1, h2, h3, this]

/-! ## The client operations on a live socket -/

theorem OnClose_of_lookup (env : Env) (c : Client) (s : WebSocket) (f : Callback)
    (hs : env.sockets[c.ws]? = some s) :
    OnClose env c f
      = .ok (env.setSocket c.ws { s with closeListeners := s.closeListeners ++ [f] }) := by
  simp [OnClose, addCloseListener, Env.modify_of_lookup env c.ws _ s hs]

theorem OnMessage_of_lookup (env : Env) (c : Client) (s : WebSocket) (f : Callback)
    (hs : env.sockets[c.ws]? = some s) :
    OnMessage env c f
      = .ok (env.setSocket c.ws { s with messageListeners := s.messageListeners ++ [f] }) := by
  simp [OnMessage, addMessageListener, Env.modify_of_lookup env c.ws _ s hs]

/-- The method `Close` returns nil, changes only the `readyState` of the socket, and does not
make it CLOSED. -/
theorem Close_of_lookup (env : Env) (c : Client) (s : WebSocket)
    (hs : env.sockets[c.ws]? = some s) :
    ∃ t, Close env c = .ok (env.setSocket c.ws t, none)
      ∧ t.closeListeners = s.closeListeners ∧ t.messageListeners = s.messageListeners
      ∧ t.sent = s.sent
      ∧ (t.readyState = .CLOSED ↔ s.readyState = .CLOSED) := by
  simp only [Close, jsClose, Env.modify_of_lookup env c.ws _ s hs]
  cases hr : s.readyState <;> exact ⟨_, rfl, by simp [hr]⟩

theorem messageCallsOf_append (f : Callback) (l1 l2 : List Invocation) :
    messageCallsOf f (l1 ++ l2) = messageCallsOf f l1 ++ messageCallsOf f l2 := by
  simp [messageCallsOf]

theorem messageCallsOf_messageListeners (f : Callback) (data : JSValue) (ls : List Callback) :
    messageCallsOf f (ls.flatMap (fun g => messageListener g data))
      = List.replicate (ls.count f) (.message f (classify data).1 (classify data).2) := by
  induction ls with
  | nil => rfl
  | cons g ls ih =>
    rw [List.flatMap_cons, messageCallsOf_append, ih, messageListener_eq_classify]
    by_cases h : g = f
    · subst h
      simp [messageCallsOf, List.replicate_succ]
    · simp [messageCallsOf, List.count_cons, h]

theorem messageCallsOf_run (ws : Nat) (f : Callback) (es : List JSValue) :
    ∀ (env : Env) (s : WebSocket), env.sockets[ws]? = some s → s.readyState = .OPEN →
      s.messageListeners.count f = 1 →
      messageCallsOf f (run env ws (es.map .message)).calls
        = messageCallsOf f env.calls
          ++ es.map (fun d => .message f (classify d).1 (classify d).2) := by
  induction es with
  | nil => intro env s _ _ _; simp [run_nil]
  | cons d es ih =>
    intro env s hs ho hf
    have hd : dispatch env ws (.message d)
        = { env with
            calls := env.calls ++ s.messageListeners.flatMap (fun g => messageListener g d) } := by
      rw [dispatch_message env ws s d hs, if_pos ho]
    have hi := ih { env with
      calls := env.calls ++ s.messageListeners.flatMap (fun g => messageListener g d) } s hs ho hf
    rw [List.map_cons, run_cons, hd, hi]
    simp [messageCallsOf_append, messageCallsOf_messageListeners, hf]

/-! ## Valid UTF-8 -/

theorem isValidUTF8_iff (bs : List Byte) :
    isValidUTF8 bs = true ↔ ∃ cs, bs = utf8Encode cs := by
  constructor
  · intro h
    exact ⟨utf8Decode bs, (of_decide_eq_true h).symm⟩
  · rintro ⟨cs, rfl⟩
    exact isValidUTF8_utf8Encode cs

/-! ## Connect -/

/-- On an address the host accepts, `Connect` appends one socket and returns its client. -/
theorem Connect_of_accepted (h : Host) (env : Env) (url : GoString)
    (ha : h.acceptsURL (jsStringOfGo url) = true) :
    Connect h env url
      = .ok (⟨env.sockets ++ [⟨jsStringOfGo url, "arraybuffer".toList, .CONNECTING, [], [], []⟩],
              env.calls⟩, ⟨env.sockets.length⟩, none) := by
  have hb : jsStringOfGo (goLit "arraybuffer") = "arraybuffer".toList := by decide
  simp [Connect, newWebSocket, ha, setBinaryType, Env.modify, Env.setSocket, hb]

/-- C5, as amended. For every address `url` that the host's `WebSocket` constructor accepts,
`Connect(url)` returns, with a nil error: the environment has exactly one more socket, the
others untouched; the new socket is for (the host string of) `url`, its `binaryType` is
`"arraybuffer"`, it is still CONNECTING (the handshake was not awaited), it has no
listeners; and the client returned refers to that socket. -/
theorem Connect_creates_arraybuffer_socket (h : Host) (env : Env) (url : GoString)
    (ha : h.acceptsURL (jsStringOfGo url) = true) :
    Connect h env url
      = .ok (⟨env.sockets ++ [⟨jsStringOfGo url, "arraybuffer".toList, .CONNECTING, [], [], []⟩],
              env.calls⟩, ⟨env.sockets.length⟩, none) :=
  Connect_of_accepted h env url ha

/-- Witness of C5 as amended: an accepted url on the empty environment. -/
theorem Connect_creates_arraybuffer_socket_witness :
    schemeHost.acceptsURL (jsStringOfGo (goLit "ws://h")) = true
      ∧ Connect schemeHost emptyEnv (goLit "ws://h")
        = .ok (⟨emptyEnv.sockets
                  ++ [⟨jsStringOfGo (goLit "ws://h"), "arraybuffer".toList, .CONNECTING, [], [],
                        []⟩],
                emptyEnv.calls⟩, ⟨emptyEnv.sockets.length⟩, none) :=
  ⟨by decide, Connect_creates_arraybuffer_socket schemeHost emptyEnv (goLit "ws://h") (by decide)⟩

/-- Counterexample to C5 as stated: for the address `not a url`, which the host rejects,
`Connect` creates no socket and returns no client: the constructor's exception ends the
call. -/
theorem Connect_rejected_url_creates_nothing :
    Connect schemeHost emptyEnv (goLit "not a url") = .error .syntaxError
      ∧ ¬ ∃ out, Connect schemeHost emptyEnv (goLit "not a url") = .ok out := by
  have h : Connect schemeHost emptyEnv (goLit "not a url") = .error .syntaxError := by decide
  refine ⟨h, ?_⟩
  rintro ⟨out, ho⟩
  rw [h] at ho
  cases ho

/-- C9, as amended. `Connect` never returns a non-nil error: whenever it returns, the error
is nil; and for an address the host rejects it does not return at all, the `SyntaxError` of
the constructor ends the call as a panic, inside the call. -/
theorem Connect_never_returns_error (h : Host) (env : Env) (url : GoString) :
    (∀ out, Connect h env url = .ok out → out.2.2 = none)
      ∧ (h.acceptsURL (jsStringOfGo url) = false → Connect h env url = .error .syntaxError) := by
  constructor
  · intro out ho
    by_cases ha : h.acceptsURL (jsStringOfGo url) = true
    · rw [Connect_of_accepted h env url ha] at ho
      cases ho
      rfl
    · simp [Connect, newWebSocket, ha] at ho
  · intro ha
    simp [Connect, newWebSocket, ha]

/-- Witness of C9 as amended: a rejected address, and an accepted one. -/
theorem Connect_never_returns_error_witness :
    schemeHost.acceptsURL (jsStringOfGo (goLit "http//x")) = false
      ∧ Connect schemeHost emptyEnv (goLit "http//x") = .error .syntaxError
      ∧ (∀ out, Connect schemeHost emptyEnv (goLit "http//x") = .ok out → out.2.2 = none) :=
  ⟨by decide,
    (Connect_never_returns_error schemeHost emptyEnv (goLit "http//x")).2 (by decide),
    (Connect_never_returns_error schemeHost emptyEnv (goLit "http//x")).1⟩

/-- Counterexample to C9 as stated: for the malformed address `://`, which the host
rejects, `Connect` returns no error value. -/
theorem Connect_malformed_url_no_error_value :
    schemeHost.acceptsURL (jsStringOfGo (goLit "://")) = false
      ∧ ¬ ∃ env c err, Connect schemeHost emptyEnv (goLit "://") = .ok (env, c, some err) := by
  refine ⟨by decide, ?_⟩
  have h : Connect schemeHost emptyEnv (goLit "://") = .error .syntaxError := by decide
  rintro ⟨env, c, err, ho⟩
  rw [h] at ho
  cases ho

/-! ## Send after the close event, and delivery of messages -/

/-- The environment `openEnv` is the one reached by `Connect` and the completion of the
handshake. -/
theorem openEnv_reached :
    ∃ env, Connect schemeHost emptyEnv (goLit "ws://h") = .ok (env, ⟨0⟩, none)
      ∧ run env 0 [.opened] = openEnv :=
  ⟨_, Connect_of_accepted schemeHost emptyEnv (goLit "ws://h") (by decide), by decide⟩

/-- C1, as amended. For every client, once the transport has dispatched the close event of
its socket (which is when the callbacks registered with `OnClose` fire), and whatever
events follow, every `Send(typ, msg)` returns nil, not an error, and leaves the environment
as it was: the payload is discarded. More generally `Send` never returns a non-nil
error. -/
theorem Send_after_close_returns_nil (env : Env) (c : Client) (s : WebSocket)
    (hs : env.sockets[c.ws]? = some s) (evs : List TransportEvent) (typ : MessageTypes)
    (msg : List Byte) :
    Send (run (dispatch env c.ws .closed) c.ws evs) c typ msg
        = .ok (run (dispatch env c.ws .closed) c.ws evs, none)
      ∧ ∀ (env2 : Env) (c2 : Client) (out : Env × Option GoError),
          Send env2 c2 typ msg = .ok out → out.2 = none := by
  refine ⟨?_, fun env2 c2 out h => Send_error_nil env2 c2 typ msg out h⟩
  obtain ⟨t, ht, -, -, hr, -⟩ := dispatch_lookup env c.ws s .closed hs
  obtain ⟨u, hu, -, -, hr2⟩ := run_lookup c.ws evs (dispatch env c.ws .closed) t ht
  have hc : u.readyState = .CLOSED := hr2.mpr (Or.inl (hr.mpr (Or.inr rfl)))
  rw [Send_eq, jsSend_closed _ c.ws u _ hu hc]

/-- Witness of C1 as amended: an open socket with the close callback 7, closed by the peer,
then a message event; the binary payload 00 FF 10 is sent afterwards. -/
theorem Send_after_close_returns_nil_witness :
    (openEnv.setSocket 0 { openSocket with closeListeners := [7] }).sockets[(⟨0⟩ : Client).ws]?
        = some { openSocket with closeListeners := [7] }
      ∧ (Send (run (dispatch (openEnv.setSocket 0 { openSocket with closeListeners := [7] })
            (⟨0⟩ : Client).ws .closed) (⟨0⟩ : Client).ws [.message (.string [])]) ⟨0⟩
            .BinaryMessage [0x00, 0xFF, 0x10]
          = .ok (run (dispatch (openEnv.setSocket 0 { openSocket with closeListeners := [7] })
              (⟨0⟩ : Client).ws .closed) (⟨0⟩ : Client).ws [.message (.string [])], none)
        ∧ ∀ (env2 : Env) (c2 : Client) (out : Env × Option GoError),
            Send env2 c2 .BinaryMessage [0x00, 0xFF, 0x10] = .ok out → out.2 = none) :=
  ⟨by decide,
    Send_after_close_returns_nil (openEnv.setSocket 0 { openSocket with closeListeners := [7] })
      ⟨0⟩ { openSocket with closeListeners := [7] } (by decide) [.message (.string [])]
      .BinaryMessage [0x00, 0xFF, 0x10]⟩

/-- Counterexample to C1 as stated: in the session in which the close callback 7 has
fired, `Send(TextMessage, "ping")` returns nil. -/
theorem Send_after_close_no_error :
    sessionAfterClose.calls = [.close 7]
      ∧ Send sessionAfterClose ⟨0⟩ .TextMessage (goLit "ping") = .ok (sessionAfterClose, none) := by
  decide

/-- C2. The listener installed by `OnMessage(f)` on an open socket, where `f` was not
registered before: registering invokes nothing, and for every finite sequence of message
events the invocations of `f` added to the log are, one per event and in the order of the
events, `f(TextMessage, UTF-8 bytes of the string)` for a string and
`f(BinaryMessage, bytes of the data)` for anything else; the bytes delivered for a binary
event are as many as the data holds. Each event is classified on its own. -/
theorem OnMessage_one_call_per_event_in_order (env : Env) (c : Client) (s : WebSocket)
    (f : Callback) (hs : env.sockets[c.ws]? = some s) (ho : s.readyState = .OPEN)
    (hf : f ∉ s.messageListeners) (es : List JSValue) :
    ∃ env1, OnMessage env c f = .ok env1 ∧ env1.calls = env.calls
      ∧ messageCallsOf f (run env1 c.ws (es.map .message)).calls
          = messageCallsOf f env.calls
            ++ es.map (fun d => .message f (classify d).1 (classify d).2)
      ∧ (∀ d ∈ es, messageListener f d = [.message f (classify d).1 (classify d).2])
      ∧ (∀ d ∈ es, d.isString = false →
          (classify d).1 = .BinaryMessage ∧ (classify d).2 = d.bytes
            ∧ (classify d).2.length = d.bytes.length)
      ∧ (∀ d ∈ es, ∀ str, d = .string str → classify d = (.TextMessage, utf8Encode str)) := by
  refine ⟨_, OnMessage_of_lookup env c s f hs, rfl, ?_, ?_, ?_, ?_⟩
  · have hl := lookup_setSocket env c.ws s
      { s with messageListeners := s.messageListeners ++ [f] } hs
    have hcount : ({ s with messageListeners := s.messageListeners ++ [f] } :
        WebSocket).messageListeners.count f = 1 := by
      simp [List.count_append, List.count_eq_zero_of_not_mem hf]
    exact messageCallsOf_run c.ws f es _ _ hl ho hcount
  · intro d _
    exact messageListener_eq_classify f d
  · intro d _ hd
    cases d <;> simp_all [classify, JSValue.isString, JSValue.bytes]
  · rintro d _ str rfl
    rfl

/-- Witness of C2: a string, a binary and again a string event on the open socket. -/
theorem OnMessage_one_call_per_event_in_order_witness :
    messageCallsOf 3 (run (openEnv.setSocket 0 { openSocket with messageListeners := [3] }) 0
        ([JSValue.string ['h', 'i'], .arrayBuffer [0x00, 0xFF], .string []].map .message)).calls
      = [.message 3 .TextMessage [0x68, 0x69], .message 3 .BinaryMessage [0x00, 0xFF],
          .message 3 .TextMessage []] := by
  obtain ⟨env1, h1, -, h2, -⟩ := OnMessage_one_call_per_event_in_order openEnv ⟨0⟩ openSocket 3
    (by decide) (by decide) (by decide)
    [JSValue.string ['h', 'i'], .arrayBuffer [0x00, 0xFF], .string []]
  have e : env1 = openEnv.setSocket 0 { openSocket with messageListeners := [3] } := by
    have h3 : OnMessage openEnv ⟨0⟩ 3
        = .ok (openEnv.setSocket 0 { openSocket with messageListeners := [3] }) := by decide
    rw [h3] at h1
    cases h1
    rfl
  rw [← e, h2]
  decide

/-! ## Round trips -/

/-- C3. For every byte sequence `B` and every client on an open socket:
`Send(BinaryMessage, B)` returns nil and queues one payload on the socket; and when that
payload comes back unchanged as a binary (`ArrayBuffer`) message event, the listener of
`OnMessage(f)` invokes `f(BinaryMessage, B2)` with `B2 = B`, byte for byte and of the same
length. Dispatched on the socket, on which `f` is registered once, the echo adds exactly
that invocation of `f` to the log. -/
theorem binary_round_trip (env : Env) (c : Client) (s : WebSocket) (B : List Byte)
    (f : Callback) (hs : env.sockets[c.ws]? = some s) (ho : s.readyState = .OPEN)
    (hf : s.messageListeners.count f = 1) :
    ∃ env1, Send env c .BinaryMessage B = .ok (env1, none)
      ∧ env1 = env.setSocket c.ws { s with sent := s.sent ++ [sendPayload .BinaryMessage B] }
      ∧ echoEvent (sendPayload .BinaryMessage B) = .arrayBuffer B
      ∧ messageListener f (echoEvent (sendPayload .BinaryMessage B))
          = [.message f .BinaryMessage B]
      ∧ messageCallsOf f
            (dispatch env1 c.ws (.message (echoEvent (sendPayload .BinaryMessage B)))).calls
          = messageCallsOf f env.calls ++ [.message f .BinaryMessage B] := by
  have hl := lookup_setSocket env c.ws s
    { s with sent := s.sent ++ [sendPayload .BinaryMessage B] } hs
  refine ⟨_, ?_, rfl, rfl, ?_, ?_⟩
  · rw [Send_eq, jsSend_open env c.ws s _ hs ho]
  · simp [messageListener_eq_classify, sendPayload, BytesToJS, echoEvent, classify]
  · have h := messageCallsOf_run c.ws f [echoEvent (sendPayload .BinaryMessage B)] _ _ hl ho hf
    simpa [run, sendPayload, BytesToJS, echoEvent, classify] using h

/-- Witness of C3: the bytes 00 FF 10 on the open socket with the message callback 3. -/
theorem binary_round_trip_witness :
    ∃ env1, Send (openEnv.setSocket 0 { openSocket with messageListeners := [3] }) ⟨0⟩
        .BinaryMessage [0x00, 0xFF, 0x10] = .ok (env1, none)
      ∧ messageCallsOf 3 (dispatch env1 0
          (.message (echoEvent (sendPayload .BinaryMessage [0x00, 0xFF, 0x10])))).calls
        = [.message 3 .BinaryMessage [0x00, 0xFF, 0x10]] := by
  obtain ⟨env1, h1, -, -, -, h2⟩ :=
    binary_round_trip (openEnv.setSocket 0 { openSocket with messageListeners := [3] }) ⟨0⟩
      { openSocket with messageListeners := [3] } [0x00, 0xFF, 0x10] 3 (by decide) (by decide)
      (by decide)
  exact ⟨env1, h1, by rw [h2]; decide⟩

/-- The text round trip where it does hold: for every string `S` (a sequence of scalar
values, so that its bytes are valid UTF-8) that does not begin with the byte order mark
U+FEFF, and every client on an open socket, `Send(TextMessage, bytes of S)` returns nil and
hands the transport the host string `S`; and when that string comes back unchanged as a
textual message event, the listener of `OnMessage(f)` invokes `f(TextMessage, P)` with `P`
exactly the UTF-8 bytes of `S`. The strings left out are those on which `Send` loses the
byte order mark. -/
theorem text_round_trip (env : Env) (c : Client) (s : WebSocket) (S : List Char)
    (f : Callback) (hs : env.sockets[c.ws]? = some s) (ho : s.readyState = .OPEN)
    (hf : s.messageListeners.count f = 1) (hS : S.head? ≠ some byteOrderMark) :
    ∃ env1, Send env c .TextMessage (utf8Encode S) = .ok (env1, none)
      ∧ env1 = env.setSocket c.ws { s with sent := s.sent ++ [.string S] }
      ∧ sendPayload .TextMessage (utf8Encode S) = .string S
      ∧ messageListener f (echoEvent (sendPayload .TextMessage (utf8Encode S)))
          = [.message f .TextMessage (utf8Encode S)]
      ∧ messageCallsOf f
            (dispatch env1 c.ws
              (.message (echoEvent (sendPayload .TextMessage (utf8Encode S))))).calls
          = messageCallsOf f env.calls ++ [.message f .TextMessage (utf8Encode S)] := by
  have hp : sendPayload .TextMessage (utf8Encode S) = .string S := by
    simp [sendPayload, jsStringOfGo_utf8Encode S hS]
  have hl := lookup_setSocket env c.ws s { s with sent := s.sent ++ [.string S] } hs
  refine ⟨_, ?_, rfl, hp, ?_, ?_⟩
  · rw [Send_eq, jsSend_open env c.ws s _ hs ho, hp]
  · simp [hp, messageListener_eq_classify, echoEvent, classify]
  · have h := messageCallsOf_run c.ws f [echoEvent (.string S)] _ _ hl ho hf
    rw [hp]
    simpa [run, echoEvent, classify] using h

/-- The text round trip on the text `ping`, on the open socket with the message
callback 3. -/
theorem text_round_trip_witness :
    ['p', 'i', 'n', 'g'].head? ≠ some byteOrderMark
      ∧ ∃ env1, Send (openEnv.setSocket 0 { openSocket with messageListeners := [3] }) ⟨0⟩
          .TextMessage (utf8Encode ['p', 'i', 'n', 'g']) = .ok (env1, none)
        ∧ messageCallsOf 3 (dispatch env1 0
            (.message (echoEvent (sendPayload .TextMessage
              (utf8Encode ['p', 'i', 'n', 'g']))))).calls
          = [.message 3 .TextMessage [0x70, 0x69, 0x6E, 0x67]] := by
  obtain ⟨env1, h1, -, -, -, h2⟩ :=
    text_round_trip (openEnv.setSocket 0 { openSocket with messageListeners := [3] }) ⟨0⟩
      { openSocket with messageListeners := [3] } ['p', 'i', 'n', 'g'] 3 (by decide) (by decide)
      (by decide) (by decide)
  exact ⟨by decide, env1, h1, by rw [h2]; decide⟩

/-- C4, where the code fails it. `Send` is documented to send the given message, and the
text round trip is to give back the bytes of every valid UTF-8 string. For the valid
string `S` made of U+FEFF and `a`, with the bytes EF BB BF 61, the host string that
`Send(TextMessage, bytes of S)` hands to the transport is `a` alone: the byte order mark is
lost on the way into the host. Its echo is delivered as `(TextMessage, 61)`, not as the
bytes of `S`. -/
theorem text_round_trip_drops_leading_BOM :
    utf8Encode [byteOrderMark, 'a'] = [0xEF, 0xBB, 0xBF, 0x61]
      ∧ isValidUTF8 [0xEF, 0xBB, 0xBF, 0x61] = true
      ∧ sendPayload .TextMessage [0xEF, 0xBB, 0xBF, 0x61] = .string ['a']
      ∧ messageListener 3 (echoEvent (sendPayload .TextMessage [0xEF, 0xBB, 0xBF, 0x61]))
          = [.message 3 .TextMessage [0x61]]
      ∧ messageListener 3 (echoEvent (sendPayload .TextMessage [0xEF, 0xBB, 0xBF, 0x61]))
          ≠ [.message 3 .TextMessage [0xEF, 0xBB, 0xBF, 0x61]] := by
  decide

/-- C8, as amended. For every payload `msg`, valid UTF-8 or not, and every client on an
open socket, `Send(TextMessage, msg)` returns nil and hands the transport the host string
that `msg` decodes to, in which each ill-formed sequence has become U+FFFD; and in no
state does `Send(TextMessage, msg)` return a non-nil error. -/
theorem Send_text_returns_nil (env : Env) (c : Client) (s : WebSocket) (msg : List Byte)
    (hs : env.sockets[c.ws]? = some s) (ho : s.readyState = .OPEN) :
    Send env c .TextMessage msg
        = .ok (env.setSocket c.ws { s with sent := s.sent ++ [.string (jsStringOfGo msg)] },
            none)
      ∧ ∀ (env2 : Env) (c2 : Client) (out : Env × Option GoError),
          Send env2 c2 .TextMessage msg = .ok out → out.2 = none := by
  refine ⟨?_, fun env2 c2 out h => Send_error_nil env2 c2 .TextMessage msg out h⟩
  rw [Send_eq, jsSend_open env c.ws s _ hs ho]
  rfl

/-- Witness of C8 as amended: the ill-formed payload C3 28 on the open socket. -/
theorem Send_text_returns_nil_witness :
    isValidUTF8 [0xC3, 0x28] = false
      ∧ Send openEnv ⟨0⟩ .TextMessage [0xC3, 0x28]
        = .ok (openEnv.setSocket 0
            { openSocket with sent := openSocket.sent ++ [.string (jsStringOfGo [0xC3, 0x28])] },
            none) :=
  ⟨by decide, (Send_text_returns_nil openEnv ⟨0⟩ openSocket [0xC3, 0x28] (by decide)
    (by decide)).1⟩

/-- Counterexample to C8 as stated: the payload FF is not valid UTF-8, yet
`Send(TextMessage, FF)` returns nil, and the string handed to the transport is U+FFFD, whose
UTF-8 encoding EF BF BD differs from the payload. -/
theorem Send_text_invalid_utf8_no_error :
    isValidUTF8 [0xFF] = false
      ∧ Send openEnv ⟨0⟩ .TextMessage [0xFF]
        = .ok (openEnv.setSocket 0 { openSocket with sent := [.string [replacementChar]] }, none)
      ∧ utf8Encode [replacementChar] = [0xEF, 0xBF, 0xBD] := by
  decide

/-! ## Close and the close notification -/

/-- C6. For every client and every callback `f`: `OnClose(f)` followed by `Close()` both
return, `Close()` with a nil error, and neither invokes any callback (the log is unchanged);
`Close()` does not make the socket CLOSED, it only asks the transport to close. After the
call, events other than the close event never invoke `f`; the close event of the socket,
when the transport dispatches it, does: it invokes `f` once for this registration. -/
theorem Close_does_not_invoke_OnClose (env : Env) (c : Client) (s : WebSocket) (f : Callback)
    (hs : env.sockets[c.ws]? = some s) :
    ∃ env1 env2, OnClose env c f = .ok env1 ∧ Close env1 c = .ok (env2, none)
      ∧ env1.calls = env.calls ∧ env2.calls = env.calls
      ∧ (∃ t, env2.sockets[c.ws]? = some t
          ∧ (t.readyState = .CLOSED ↔ s.readyState = .CLOSED)
          ∧ t.closeListeners = s.closeListeners ++ [f])
      ∧ (∀ evs : List TransportEvent, .closed ∉ evs →
          closeCallsOf f (run env2 c.ws evs).calls = closeCallsOf f env.calls)
      ∧ (s.readyState ≠ .CLOSED →
          closeCallsOf f (dispatch env2 c.ws .closed).calls
            = closeCallsOf f env.calls + (s.closeListeners.count f + 1)) := by
  have h1 := OnClose_of_lookup env c s f hs
  have hl1 := lookup_setSocket env c.ws s
    { s with closeListeners := s.closeListeners ++ [f] } hs
  obtain ⟨t, h2, hc, -, -, hr⟩ := Close_of_lookup _ c _ hl1
  have hl2 := lookup_setSocket _ c.ws _ t hl1
  refine ⟨_, _, h1, h2, rfl, rfl, ⟨t, hl2, hr, hc⟩, ?_, ?_⟩
  · intro evs hev
    rw [closeCallsOf_run c.ws f evs _ t hl2]
    simp [hev, calls_setSocket]
  · intro hopen
    have ht : t.readyState ≠ .CLOSED := fun h => hopen (hr.mp h)
    rw [closeCallsOf_dispatch _ c.ws t f .closed hl2, hc]
    simp [ht, calls_setSocket, List.count_append]

/-- Witness of C6: the open socket with the close callback 7. -/
theorem Close_does_not_invoke_OnClose_witness :
    ∃ env1 env2, OnClose openEnv ⟨0⟩ 7 = .ok env1 ∧ Close env1 ⟨0⟩ = .ok (env2, none)
      ∧ env2.calls = openEnv.calls
      ∧ closeCallsOf 7 (dispatch env2 0 .closed).calls = 1 := by
  obtain ⟨env1, env2, h1, h2, -, h3, -, -, h4⟩ :=
    Close_does_not_invoke_OnClose openEnv ⟨0⟩ openSocket 7 (by decide)
  exact ⟨env1, env2, h1, h2, h3, by rw [h4 (by decide)]; decide⟩

/-- C7, as amended. For every client whose socket has not yet dispatched its close event
when `OnClose(f)` is registered (`f` not registered before), whatever events the transport
dispatches before and after the call of `Close()`: `f` is invoked once if the close event is
among them and not at all otherwise, so never more than once; and the socket is CLOSED at
the end exactly when the close event is among them. Over a lifetime that ends with the
socket CLOSED, `f` is therefore invoked exactly once, whether the peer closed before the
local `Close()` or after it. -/
theorem OnClose_invoked_exactly_once (env : Env) (c : Client) (s : WebSocket) (f : Callback)
    (hs : env.sockets[c.ws]? = some s) (hopen : s.readyState ≠ .CLOSED)
    (hf : f ∉ s.closeListeners) (evs1 evs2 : List TransportEvent) :
    ∃ env1 env3, OnClose env c f = .ok env1
      ∧ Close (run env1 c.ws evs1) c = .ok (env3, none)
      ∧ closeCallsOf f (run env3 c.ws evs2).calls
          = closeCallsOf f env.calls + (if .closed ∈ evs1 ++ evs2 then 1 else 0)
      ∧ ∃ t, (run env3 c.ws evs2).sockets[c.ws]? = some t
          ∧ (t.readyState = .CLOSED ↔ .closed ∈ evs1 ++ evs2) := by
  have h1 := OnClose_of_lookup env c s f hs
  have hl1 := lookup_setSocket env c.ws s
    { s with closeListeners := s.closeListeners ++ [f] } hs
  have hcount : (s.closeListeners ++ [f]).count f = 1 := by
    simp [List.count_append, List.count_eq_zero_of_not_mem hf]
  obtain ⟨u, hu, -, huc, hur⟩ := run_lookup c.ws evs1 _ _ hl1
  have hcalls1 := closeCallsOf_run c.ws f evs1 _ _ hl1
  obtain ⟨t, h2, htc, -, -, htr⟩ := Close_of_lookup _ c u hu
  have hl3 := lookup_setSocket _ c.ws u t hu
  obtain ⟨v, hv, -, -, hvr⟩ := run_lookup c.ws evs2 _ t hl3
  have hcalls2 := closeCallsOf_run c.ws f evs2 _ t hl3
  refine ⟨_, _, h1, h2, ?_, v, hv, ?_⟩
  · rw [hcalls2, calls_setSocket, hcalls1, calls_setSocket, htc, huc]
    simp only [hcount, ne_eq, hopen, not_false_eq_true, true_and, List.mem_append]
    by_cases m1 : TransportEvent.closed ∈ evs1
    · have : t.readyState = .CLOSED := htr.mpr (hur.mpr (Or.inr m1))
      simp [m1, this]
    · have : ¬ t.readyState = .CLOSED := fun h => (hur.mp (htr.mp h)).elim hopen m1
      simp [m1, this]
  · rw [hvr, htr, hur]
    simp [hopen, List.mem_append]

/-- Witness of C7 as amended: the open socket; the peer closes before the local `Close()`
takes effect, and the transport events end with the close event. -/
theorem OnClose_invoked_exactly_once_witness :
    ∃ env1 env3, OnClose openEnv ⟨0⟩ 7 = .ok env1
      ∧ Close (run env1 0 [.message (.string [])]) ⟨0⟩ = .ok (env3, none)
      ∧ closeCallsOf 7 (run env3 0 [.closed]).calls = 1 := by
  obtain ⟨env1, env3, h1, h2, h3, -⟩ :=
    OnClose_invoked_exactly_once openEnv ⟨0⟩ openSocket 7 (by decide) (by decide) (by decide)
      [.message (.string [])] [.closed]
  exact ⟨env1, env3, h1, h2, by rw [h3]; decide⟩

/-- Counterexample to C7 as stated: a client is connected and the peer closes the
connection (the environment reached is `closedEnv`); then `OnClose(7)` is registered and
`Close()` is called; both return, and whatever the transport dispatches afterwards the
callback 7 is invoked zero times. -/
theorem OnClose_after_closure_never_invoked :
    (∃ env, Connect schemeHost emptyEnv (goLit "ws://h") = .ok (env, ⟨0⟩, none)
        ∧ run env 0 [.opened, .closed] = closedEnv)
      ∧ (∃ env1, OnClose closedEnv ⟨0⟩ 7 = .ok env1 ∧ Close env1 ⟨0⟩ = .ok (lateRegistration, none))
      ∧ closeCallsOf 7 (run lateRegistration 0 [.closed, .opened, .closed]).calls = 0
      ∧ ∀ evs : List TransportEvent, closeCallsOf 7 (run lateRegistration 0 evs).calls = 0 := by
  refine ⟨⟨_, Connect_of_accepted schemeHost emptyEnv (goLit "ws://h") (by decide), by decide⟩,
    ⟨_, rfl, by decide⟩, by decide, fun evs => ?_⟩
  have hl : lateRegistration.sockets[0]?
      = some { closedSocket with closeListeners := [7] } := by decide
  have h0 : closeCallsOf 7 lateRegistration.calls = 0 := by decide
  rw [closeCallsOf_run 0 7 evs lateRegistration _ hl, h0]
  simp [closedSocket]

end Websocket

/-! ## The svg command: the default output name -/

namespace Svg

open Websocket (Byte GoString GoError goLit)

/-- The loop of `filepath.Ext` returns a suffix `path[i:]` of the path: the empty one, or
one that starts at a dot after which the positions inspected hold neither a dot nor a
path separator. -/
theorem ExtLoop_spec (goos : GOOS) (path : GoString) :
    ∀ n, n ≤ path.length →
      ∃ i, i ≤ path.length ∧ ExtLoop goos path n = path.drop i
        ∧ (i = path.length
          ∨ (i < n ∧ path[i]? = some 0x2E
            ∧ ∀ j b, i < j → j < n → path[j]? = some b →
                b ≠ 0x2E ∧ IsPathSeparator goos b = false)) := by
  intro n
  induction n with
  | zero => intro _; exact ⟨path.length, le_refl _, by simp [ExtLoop], Or.inl rfl⟩
  | succ n ih =>
    intro hn
    have hlt : n < path.length := by omega
    have hget : path[n]? = some path[n] := List.getElem?_eq_getElem hlt
    rw [ExtLoop, hget]
    simp only
    by_cases hsep : IsPathSeparator goos path[n] = true
    · rw [if_pos hsep]
      exact ⟨path.length, le_refl _, by simp, Or.inl rfl⟩
    · rw [if_neg hsep]
      by_cases hdot : path[n] = 0x2E
      · rw [if_pos hdot]
        refine ⟨n, by omega, rfl, Or.inr ⟨by omega, by rw [hget, hdot], ?_⟩⟩
        intro j b h1 h2
        omega
      · rw [if_neg hdot]
        obtain ⟨i, hi, he, hprop⟩ := ih (by omega)
        refine ⟨i, hi, he, ?_⟩
        rcases hprop with h | ⟨h1, h2, h3⟩
        · exact Or.inl h
        · refine Or.inr ⟨by omega, h2, ?_⟩
          intro j b hj1 hj2 hb
          by_cases hjn : j = n
          · subst hjn
            rw [hget] at hb
            cases hb
            exact ⟨hdot, by simpa using hsep⟩
          · exact h3 j b hj1 (by omega) hb

theorem Ext_eq_drop (goos : GOOS) (path : GoString) :
    ∃ i, i ≤ path.length ∧ Ext goos path = path.drop i := by
  obtain ⟨i, hi, he, -⟩ := ExtLoop_spec goos path path.length (le_refl _)
  exact ⟨i, hi, he⟩

/-- The function `filepath.Ext` returns a suffix of the path, and `strings.TrimSuffix`
removes exactly it. -/
theorem TrimSuffix_Ext_append (goos : GOOS) (path : GoString) :
    TrimSuffix path (Ext goos path) ++ Ext goos path = path := by
  obtain ⟨i, hi, he⟩ := Ext_eq_drop goos path
  have hlen : path.length - (path.drop i).length = i := by
    rw [List.length_drop]; omega
  have hs : HasSuffix path (path.drop i) = true := by
    unfold HasSuffix
    rw [hlen]
    simp
  rw [he, TrimSuffix, if_pos hs, hlen, List.take_append_drop]

/-- The extension is empty, or it is a dot followed by bytes that are neither a dot nor a
path separator: it starts at the last dot of the last element of the path. -/
theorem Ext_shape (goos : GOOS) (path : GoString) :
    Ext goos path = []
      ∨ ∃ rest, Ext goos path = 0x2E :: rest
          ∧ ∀ b ∈ rest, b ≠ 0x2E ∧ IsPathSeparator goos b = false := by
  obtain ⟨i, hi, he, hprop⟩ := ExtLoop_spec goos path path.length (le_refl _)
  rcases hprop with h | ⟨h1, h2, h3⟩
  · left
    rw [Ext, he, h, List.drop_length]
  · right
    refine ⟨path.drop (i + 1), ?_, ?_⟩
    · rw [Ext, he, List.drop_eq_getElem_cons h1]
      have : path[i]? = some path[i] := List.getElem?_eq_getElem h1
      rw [this] at h2
      rw [Option.some.inj h2]
    · intro b hb
      obtain ⟨k, hk, rfl⟩ := List.getElem_of_mem hb
      rw [List.length_drop] at hk
      have hj : i + 1 + k < path.length := by omega
      have e : (path.drop (i + 1))[k] = path[i + 1 + k] := by
        simp [List.getElem_drop]
      rw [e]
      exact h3 (i + 1 + k) _ (by omega) hj (List.getElem?_eq_getElem hj)

/-- A path without any dot has no extension. -/
theorem Ext_eq_nil_of_no_dot (goos : GOOS) (path : GoString) (h : ∀ b ∈ path, b ≠ 0x2E) :
    Ext goos path = [] := by
  rcases Ext_shape goos path with h0 | ⟨rest, hr, -⟩
  · exact h0
  · obtain ⟨i, -, he⟩ := Ext_eq_drop goos path
    have hmem : (0x2E : Byte) ∈ path := by
      have : (0x2E : Byte) ∈ path.drop i := by rw [← he, hr]; exact List.mem_cons_self _ _
      exact List.mem_of_mem_drop this
    exact absurd rfl (h _ hmem)

theorem TrimSuffix_nil (s : GoString) : TrimSuffix s [] = s := by
  simp [TrimSuffix, HasSuffix]

/-- C10. For every `Config`, once `ApplyFill` and the opening of the input have succeeded:
with an empty `Output`, `Render` sets `Output` to `Input` without its extension
(`filepath.Ext`, removed by `strings.TrimSuffix`) followed by `.png`, and saves to that
name; `EmbedImage` does the same with `.svg`; with a non-empty `Output` both leave it as it
is and save to it. The extension removed is a suffix of `Input`, empty or starting at the
last dot of the last path element; an `Input` with no extension just gets the new
extension appended. -/
theorem default_output_is_input_with_new_extension (lib : SvgLib) (goos : GOOS) (c : Config)
    (hfill : ApplyFill lib c = none) :
    (lib.openXML c.Input = none →
        (c.Output = [] →
          (Render lib goos c).config.Output
              = TrimSuffix c.Input (Ext goos c.Input) ++ goLit ".png"
            ∧ (Render lib goos c).saved
              = some (TrimSuffix c.Input (Ext goos c.Input) ++ goLit ".png"))
        ∧ (c.Output ≠ [] →
          (Render lib goos c).config.Output = c.Output
            ∧ (Render lib goos c).saved = some c.Output))
      ∧ (lib.openImage c.Input = none →
        (c.Output = [] →
          (EmbedImage lib goos c).config.Output
              = TrimSuffix c.Input (Ext goos c.Input) ++ goLit ".svg"
            ∧ (EmbedImage lib goos c).saved
              = some (TrimSuffix c.Input (Ext goos c.Input) ++ goLit ".svg"))
        ∧ (c.Output ≠ [] →
          (EmbedImage lib goos c).config.Output = c.Output
            ∧ (EmbedImage lib goos c).saved = some c.Output))
      ∧ TrimSuffix c.Input (Ext goos c.Input) ++ Ext goos c.Input = c.Input
      ∧ (Ext goos c.Input = []
        ∨ ∃ rest, Ext goos c.Input = 0x2E :: rest
            ∧ ∀ b ∈ rest, b ≠ 0x2E ∧ IsPathSeparator goos b = false)
      ∧ (Ext goos c.Input = [] → TrimSuffix c.Input (Ext goos c.Input) = c.Input)
      ∧ ((∀ b ∈ c.Input, b ≠ 0x2E) → Ext goos c.Input = []) := by
  refine ⟨?_, ?_, TrimSuffix_Ext_append goos c.Input, Ext_shape goos c.Input, ?_,
    Ext_eq_nil_of_no_dot goos c.Input⟩
  · intro hopen
    have hfill2 : ∀ c2 : Config, c2.Fill = c.Fill → ApplyFill lib c2 = none := by
      intro c2 h2
      simpa [ApplyFill, h2] using hfill
    constructor
    · intro ho
      unfold Render
      split_ifs <;> simp [hfill, hfill2, hopen, ho]
    · intro ho
      unfold Render
      split_ifs <;> simp [hfill, hfill2, hopen, ho]
  · intro hopen
    constructor
    · intro ho
      simp [EmbedImage, hfill, hopen, ho]
    · intro ho
      simp [EmbedImage, hfill, hopen, ho]
  · intro h
    rw [h, TrimSuffix_nil]

/-- Witness of C10: `pics/logo.v2.svg` with no output given is rendered to
`pics/logo.v2.png` and embedded to `pics/logo.v2.svg`. -/
theorem default_output_is_input_with_new_extension_witness :
    ApplyFill okLib demoConfig = none
      ∧ okLib.openXML demoConfig.Input = none
      ∧ demoConfig.Output = []
      ∧ (Render okLib .unix demoConfig).saved = some (goLit "pics/logo.v2.png")
      ∧ (EmbedImage okLib .unix demoConfig).saved = some (goLit "pics/logo.v2.svg")
      ∧ (Render okLib .unix demoConfig).config.Output
          = TrimSuffix demoConfig.Input (Ext .unix demoConfig.Input) ++ goLit ".png" :=
  ⟨by decide, by decide, by decide, by decide, by decide,
    ((default_output_is_input_with_new_extension okLib .unix demoConfig (by decide)).1
      (by decide)).1 (by decide) |>.1⟩

end Svg
